import Mathlib

/-!
Joystick-driven counter with LCD output (`src/main.c`).

A shallow embedding of the main loop of `main.c`: the counter `cnt0`, the render cache
`cnt1`, the previous joystick sample `joyst1` and the hold timer `delay_count` form the
state; one pass of the `while (1)` body is the function `mainLoopBody`, which returns the
next state together with the LCD calls made during the pass.

* `unsigned int` values are natural numbers below `2 ^ 32`; `~` is `bnot32`.
* `int` values are integers; additions and subtractions on `cnt0` and `delay_count` are
  reduced to the 32-bit two's complement range by `int32` (the wrap-around of the target).
* The bit masks of `board.h` and the colours of `lcd-ge8.h` are not part of the sources:
  the masks are the fields of a `Board` parameter, the colours are symbolic names.
-/

namespace PioLcd

/-! ## Constants (`main.c`, lines 15-25) -/

def CNT_STEP_1 : Int := 1
def CNT_STEP_2 : Int := 10
def CNT_STEP_3 : Int := 100
def CNT_STEP_4 : Int := 1000

def CNT_MIN : Int := -8000
def CNT_MAX : Int := 15000

def LOOP_N_MAX : Int := 10

/-! ## Machine arithmetic -/

/-- Bitwise complement of an `unsigned int` (32 bits). -/
def bnot32 (x : Nat) : Nat := 2 ^ 32 - 1 - x % 2 ^ 32

/-- Reduction of an integer to the range of a 32-bit two's complement `int`. -/
def int32 (x : Int) : Int := (x + 2 ^ 31) % 2 ^ 32 - 2 ^ 31

/-! ## Hardware description taken as a parameter -/

/-- The bit masks that `board.h` gives to the joystick and button lines. -/
structure Board where
  JOYSTICK_UP_bm : Nat
  JOYSTICK_DOWN_bm : Nat
  JOYSTICK_LEFT_bm : Nat
  JOYSTICK_RIGHT_bm : Nat
  BUTTON_SW1_bm : Nat
  BUTTON_SW2_bm : Nat
deriving DecidableEq, Repr

/-- The four joystick directions tested by the main loop. -/
inductive Dir where
  | Up
  | Down
  | Left
  | Right
deriving DecidableEq, Repr

/-- The mask of a direction on a board. -/
def Board.mask (B : Board) : Dir → Nat
  | Dir.Up => B.JOYSTICK_UP_bm
  | Dir.Down => B.JOYSTICK_DOWN_bm
  | Dir.Left => B.JOYSTICK_LEFT_bm
  | Dir.Right => B.JOYSTICK_RIGHT_bm

/-- An assignment of single-bit masks on distinct lines, used to evaluate the loop on
concrete samples (joystick on lines 9, 8, 7, 14 of port A, buttons on lines 24, 25 of
port B). -/
def sampleBoard : Board where
  JOYSTICK_UP_bm := 2 ^ 9
  JOYSTICK_DOWN_bm := 2 ^ 8
  JOYSTICK_LEFT_bm := 2 ^ 7
  JOYSTICK_RIGHT_bm := 2 ^ 14
  BUTTON_SW1_bm := 2 ^ 24
  BUTTON_SW2_bm := 2 ^ 25

/-! ## The display surface -/

/-- Colour names of `lcd-ge8.h` used by `main.c`. -/
inductive Color where
  | BLACK
  | YELLOW
  | BLUE
  | GREEN
  | RED
deriving DecidableEq, Repr

/-- The LCD calls of the main loop, recorded in the order in which they are made. -/
inductive Cmd where
  | LCDGotoXY (x y : Nat)
  | LCDCharColor (fg bg : Color)
  | LCDPutStr (txt : String)
deriving DecidableEq, Repr

/-- Decimal text of an `int`, as `%d` prints it. -/
def decimal (n : Int) : List Char :=
  if n < 0 then '-' :: Nat.toDigits 10 n.natAbs else Nat.toDigits 10 n.natAbs

/-- Right-justification in a field of at least six characters, as `%6d` does. -/
def pad6 (l : List Char) : List Char := List.replicate (6 - l.length) ' ' ++ l

/-- The text produced by `sprintf(txt, "<label>%6d ", n)`. -/
def sprintf6d (label : String) (n : Int) : String :=
  String.mk (label.toList ++ pad6 (decimal n) ++ [' '])

/-! ## State and inputs of the main loop -/

/-- The variables that live across passes of the main loop. -/
structure State where
  joyst1 : Nat
  cnt0 : Int
  cnt1 : Int
  delay_count : Int
deriving DecidableEq, Repr

/-- The two port reads of one pass: `PIO_GetInput(JOYSTICK_PIO_BASE)` and
`PIO_GetInput(BUTTONS_PIO_BASE)`. -/
structure Input where
  joystick : Nat
  buttons : Nat
deriving DecidableEq, Repr

/-- The state on entry to the main loop (lines 48-49, 90-91, 94); the argument is the
joystick port read of line 90. -/
def mainInit (joystick : Nat) : State where
  joyst1 := bnot32 joystick
  cnt0 := 0
  cnt1 := 0 + 1
  delay_count := 0

/-- Line 99: `joyst0 = ~PIO_GetInput(JOYSTICK_PIO_BASE)`. -/
def joyst0 (inp : Input) : Nat := bnot32 inp.joystick

/-- Line 100: `joystREdge = ~joyst1 & joyst0`. -/
def joystREdge (s : State) (inp : Input) : Nat := bnot32 s.joyst1 &&& joyst0 inp

/-- Line 103: `but0 = ~PIO_GetInput(BUTTONS_PIO_BASE)`. -/
def but0 (inp : Input) : Nat := bnot32 inp.buttons

/-- Lines 107-117: no button pressed, steps of 1 and 10. -/
def stepNoButton (B : Board) (re b : Nat) (cnt0 : Int) : Int :=
  if (b &&& B.BUTTON_SW1_bm) = 0 ∧ (b &&& B.BUTTON_SW2_bm) = 0 then
    if (re &&& B.JOYSTICK_UP_bm) ≠ 0 then int32 (cnt0 + CNT_STEP_1)
    else if (re &&& B.JOYSTICK_DOWN_bm) ≠ 0 then int32 (cnt0 - CNT_STEP_1)
    else if (re &&& B.JOYSTICK_LEFT_bm) ≠ 0 then int32 (cnt0 - CNT_STEP_2)
    else if (re &&& B.JOYSTICK_RIGHT_bm) ≠ 0 then int32 (cnt0 + CNT_STEP_2)
    else cnt0
  else cnt0

/-- Lines 120-130: only SW1 pressed, steps of 100 and 1000. -/
def stepSW1 (B : Board) (re b : Nat) (cnt0 : Int) : Int :=
  if (b &&& B.BUTTON_SW1_bm) ≠ 0 ∧ (b &&& B.BUTTON_SW2_bm) = 0 then
    if (re &&& B.JOYSTICK_UP_bm) ≠ 0 then int32 (cnt0 + CNT_STEP_3)
    else if (re &&& B.JOYSTICK_DOWN_bm) ≠ 0 then int32 (cnt0 - CNT_STEP_3)
    else if (re &&& B.JOYSTICK_LEFT_bm) ≠ 0 then int32 (cnt0 - CNT_STEP_4)
    else if (re &&& B.JOYSTICK_RIGHT_bm) ≠ 0 then int32 (cnt0 + CNT_STEP_4)
    else cnt0
  else cnt0

/-- Lines 133-143: only SW2 pressed, the counter is set to a fixed value. -/
def stepSW2 (B : Board) (re b : Nat) (cnt0 : Int) : Int :=
  if (b &&& B.BUTTON_SW1_bm) = 0 ∧ (b &&& B.BUTTON_SW2_bm) ≠ 0 then
    if (re &&& B.JOYSTICK_UP_bm) ≠ 0 then CNT_MAX
    else if (re &&& B.JOYSTICK_DOWN_bm) ≠ 0 then CNT_MIN
    else if (re &&& B.JOYSTICK_LEFT_bm) ≠ 0 then 0
    else if (re &&& B.JOYSTICK_RIGHT_bm) ≠ 0 then Int.tdiv (CNT_MAX + CNT_MIN) 2
    else cnt0
  else cnt0

/-- Lines 146-158: the hold timer of the two buttons; returns `(cnt0, delay_count)`. -/
def stepHold (B : Board) (b : Nat) (cnt0 delay_count : Int) : Int × Int :=
  if (b &&& B.BUTTON_SW1_bm) ≠ 0 ∧ (b &&& B.BUTTON_SW2_bm) ≠ 0 then
    let d := int32 (delay_count + 1)
    if d = 10 then (0, 0) else (cnt0, d)
  else if (b &&& B.BUTTON_SW1_bm) = 0 ∨ (b &&& B.BUTTON_SW2_bm) = 0 then
    (cnt0, 0)
  else (cnt0, delay_count)

/-- Lines 161-210: the LCD calls made for the counter `cnt0` when the render cache holds
`cnt1`. -/
def render (cnt0 cnt1 : Int) : List Cmd :=
  if cnt0 ≠ cnt1 ∧ cnt0 < CNT_MAX + 1 ∧ cnt0 > CNT_MIN - 1 then
    [Cmd.LCDGotoXY 5 50, Cmd.LCDCharColor Color.YELLOW Color.BLUE,
      Cmd.LCDPutStr (sprintf6d "Cnt=" cnt0),
     Cmd.LCDGotoXY 5 30, Cmd.LCDCharColor Color.BLACK Color.GREEN,
      Cmd.LCDPutStr (sprintf6d "MAX=" CNT_MAX),
     Cmd.LCDGotoXY 5 70, Cmd.LCDCharColor Color.BLACK Color.GREEN,
      Cmd.LCDPutStr (sprintf6d "MIN=" CNT_MIN)]
    ++
    (if cnt0 = CNT_MAX ∨ cnt0 = CNT_MIN then
      [Cmd.LCDGotoXY 5 50, Cmd.LCDCharColor Color.YELLOW Color.RED,
        Cmd.LCDPutStr (sprintf6d "Cnt=" cnt0)]
      ++
      (if cnt0 = CNT_MIN then
        [Cmd.LCDGotoXY 95 50, Cmd.LCDCharColor Color.YELLOW Color.RED, Cmd.LCDPutStr "MIN"]
      else if cnt0 = CNT_MAX then
        [Cmd.LCDGotoXY 95 50, Cmd.LCDCharColor Color.YELLOW Color.RED, Cmd.LCDPutStr "MAX"]
      else [])
    else
      [Cmd.LCDGotoXY 95 50, Cmd.LCDCharColor Color.BLACK Color.BLACK, Cmd.LCDPutStr "   "])
  else []

/-- One pass of the `while (1)` body (lines 98-217): the next state and the LCD calls of
the pass. -/
def mainLoopBody (B : Board) (s : State) (inp : Input) : State × List Cmd :=
  let re := joystREdge s inp
  let b := but0 inp
  let c1 := stepNoButton B re b s.cnt0
  let c2 := stepSW1 B re b c1
  let c3 := stepSW2 B re b c2
  let h := stepHold B b c3 s.delay_count
  ({ joyst1 := joyst0 inp, cnt0 := h.1, cnt1 := h.1, delay_count := h.2 }, render h.1 s.cnt1)

/-- The state after the passes fed with the given port reads, in order. -/
def mainLoop (B : Board) (s : State) : List Input → State
  | [] => s
  | inp :: rest => mainLoop B (mainLoopBody B s inp).1 rest

/-- The LCD calls of each pass, one list per pass. -/
def mainLoopDraws (B : Board) (s : State) : List Input → List (List Cmd)
  | [] => []
  | inp :: rest => (mainLoopBody B s inp).2 :: mainLoopDraws B (mainLoopBody B s inp).1 rest

/-- A port read with every line high: the inputs are active low, nothing is pressed. -/
def allHigh : Nat := 0xFFFFFFFF

/-- A port read in which exactly the lines of the mask `m` are low (pressed). -/
def low (m : Nat) : Nat := 0xFFFFFFFF - m

/-! ## Vocabulary of the specification -/

/-- The counter lies in the range `CNT_MIN .. CNT_MAX`. -/
def inRange (c : Int) : Prop := CNT_MIN ≤ c ∧ c ≤ CNT_MAX

instance (c : Int) : Decidable (inRange c) := by unfold inRange; infer_instance

/-- The rising-edge flag of a direction in a pass: the test `(joystREdge & mask) != 0`. -/
def edge (B : Board) (s : State) (inp : Input) (d : Dir) : Prop :=
  (joystREdge s inp &&& B.mask d) ≠ 0

instance (B : Board) (s : State) (inp : Input) (d : Dir) : Decidable (edge B s inp d) := by
  unfold edge; infer_instance

/-- Button SW1 is pressed in a pass: the test `(but0 & BUTTON_SW1_bm) != 0`. -/
def sw1 (B : Board) (inp : Input) : Prop := (but0 inp &&& B.BUTTON_SW1_bm) ≠ 0

/-- Button SW2 is pressed in a pass: the test `(but0 & BUTTON_SW2_bm) != 0`. -/
def sw2 (B : Board) (inp : Input) : Prop := (but0 inp &&& B.BUTTON_SW2_bm) ≠ 0

instance (B : Board) (inp : Input) : Decidable (sw1 B inp) := by unfold sw1; infer_instance

instance (B : Board) (inp : Input) : Decidable (sw2 B inp) := by unfold sw2; infer_instance

/-- The modifier states of the specification. -/
inductive ModifierState where
  | None
  | Primary
  | Secondary
  | Both
deriving DecidableEq, Repr

/-- The modifier state of a pass, from the two button tests. -/
def modifierState (B : Board) (inp : Input) : ModifierState :=
  if sw1 B inp then (if sw2 B inp then ModifierState.Both else ModifierState.Primary)
  else (if sw2 B inp then ModifierState.Secondary else ModifierState.None)

/-- The first rising edge of a pass in the order Up, Down, Left, Right. -/
def firstEdge (B : Board) (s : State) (inp : Input) : Option Dir :=
  if edge B s inp Dir.Up then some Dir.Up
  else if edge B s inp Dir.Down then some Dir.Down
  else if edge B s inp Dir.Left then some Dir.Left
  else if edge B s inp Dir.Right then some Dir.Right
  else none

/-- The relative steps of the specification (rows None and Primary of its table); the
other two rows have no relative step. -/
def relStep : ModifierState → Dir → Int
  | ModifierState.None, Dir.Up => 1
  | ModifierState.None, Dir.Down => -1
  | ModifierState.None, Dir.Left => -10
  | ModifierState.None, Dir.Right => 10
  | ModifierState.Primary, Dir.Up => 100
  | ModifierState.Primary, Dir.Down => -100
  | ModifierState.Primary, Dir.Left => -1000
  | ModifierState.Primary, Dir.Right => 1000
  | ModifierState.Secondary, _ => 0
  | ModifierState.Both, _ => 0

/-- The absolute values of the specification (row Secondary of its table). -/
def setValue : Dir → Int
  | Dir.Up => 15000
  | Dir.Down => -8000
  | Dir.Left => 0
  | Dir.Right => 3500

/-- The rising-edge flag of one direction in each pass of a run. -/
def edgeFlags (B : Board) (d : Dir) : State → List Input → List Bool
  | _, [] => []
  | s, inp :: rest => decide (edge B s inp d) :: edgeFlags B d (mainLoopBody B s inp).1 rest

/-- The rising edge that acts in each pass of a run (`firstEdge`), one entry per pass. -/
def edgeTrace (B : Board) : State → List Input → List (Option Dir)
  | _, [] => []
  | s, inp :: rest => firstEdge B s inp :: edgeTrace B (mainLoopBody B s inp).1 rest

/-- The rule `clamp_or_discard` of the specification for one step: the step is taken
when its result lies in the range and skipped otherwise. -/
def clamp_or_discard (c step : Int) : Int := if inRange (c + step) then c + step else c

/-- The counter that the specification predicts for a sequence of Up and Down pulses:
+1 and -1 in order, each under `clamp_or_discard`. -/
def specPulses (c : Int) : List (Option Dir) → Int
  | [] => c
  | some Dir.Up :: rest => specPulses (clamp_or_discard c 1) rest
  | some Dir.Down :: rest => specPulses (clamp_or_discard c (-1)) rest
  | _ :: rest => specPulses c rest

/-- The port reads of `n` Up pulses on `sampleBoard` with no button pressed: Up pressed
in one pass and released in the next, `n` times. -/
def upPulses : Nat → List Input
  | 0 => []
  | n + 1 =>
    Input.mk (low sampleBoard.JOYSTICK_UP_bm) allHigh :: Input.mk allHigh allHigh :: upPulses n

/-- What the trace of LCD calls leaves on the display, as far as the counter text is
concerned: the position set by the last `LCDGotoXY` (unknown after a text has been
written) and the text last written at (5,50). -/
structure Screen where
  cursor : Option (Nat × Nat)
  cntText : Option String
deriving DecidableEq, Repr

/-- The display after `LCDClrScr(BLACK)` (line 78): no text. -/
def Screen.blank : Screen := { cursor := none, cntText := none }

/-- The effect of one LCD call on the display. -/
def Screen.exec (sc : Screen) : Cmd → Screen
  | Cmd.LCDGotoXY x y => { sc with cursor := some (x, y) }
  | Cmd.LCDCharColor _ _ => sc
  | Cmd.LCDPutStr txt =>
    if sc.cursor = some (5, 50) then { cursor := none, cntText := some txt }
    else { sc with cursor := none }

/-- The effect of a list of LCD calls, in order. -/
def Screen.run (sc : Screen) (cmds : List Cmd) : Screen := cmds.foldl Screen.exec sc

/-- The display after the passes of a run. -/
def mainLoopScreen (B : Board) : State → Screen → List Input → Screen
  | _, sc, [] => sc
  | s, sc, inp :: rest =>
    mainLoopScreen B (mainLoopBody B s inp).1 (Screen.run sc (mainLoopBody B s inp).2) rest

/-! ## Auxiliary facts -/

theorem int32_eq_self {x : Int} (h1 : -2 ^ 31 ≤ x) (h2 : x < 2 ^ 31) : int32 x = x := by
  unfold int32
  omega

theorem int32_of_inRange {x : Int} (h : inRange x) : int32 x = x := by
  unfold inRange CNT_MIN CNT_MAX at h
  exact int32_eq_self (by omega) (by omega)

/-- The counter after a pass, by modifier state and first rising edge. -/
theorem mainLoopBody_cnt0 (B : Board) (s : State) (inp : Input) :
    (mainLoopBody B s inp).1.cnt0 =
      match modifierState B inp with
      | ModifierState.Both => if int32 (s.delay_count + 1) = 10 then 0 else s.cnt0
      | ModifierState.Secondary =>
        (match firstEdge B s inp with
         | none => s.cnt0
         | some d => setValue d)
      | m =>
        (match firstEdge B s inp with
         | none => s.cnt0
         | some d => int32 (s.cnt0 + relStep m d)) := by
  unfold mainLoopBody stepHold stepSW2 stepSW1 stepNoButton modifierState firstEdge
    edge sw1 sw2 Board.mask
  by_cases h1 : (but0 inp &&& B.BUTTON_SW1_bm) = 0 <;>
  by_cases h2 : (but0 inp &&& B.BUTTON_SW2_bm) = 0 <;>
  by_cases hu : (joystREdge s inp &&& B.JOYSTICK_UP_bm) = 0 <;>
  by_cases hd : (joystREdge s inp &&& B.JOYSTICK_DOWN_bm) = 0 <;>
  by_cases hl : (joystREdge s inp &&& B.JOYSTICK_LEFT_bm) = 0 <;>
  by_cases hr : (joystREdge s inp &&& B.JOYSTICK_RIGHT_bm) = 0 <;>
  simp [h1, h2, hu, hd, hl, hr, relStep, setValue, CNT_STEP_1, CNT_STEP_2, CNT_STEP_3,
    CNT_STEP_4, CNT_MAX, CNT_MIN, sub_eq_add_neg] <;>
  first
  | rfl
  | (split_ifs <;> rfl)

/-- The hold timer after a pass. -/
theorem mainLoopBody_delay_count (B : Board) (s : State) (inp : Input) :
    (mainLoopBody B s inp).1.delay_count =
      if modifierState B inp = ModifierState.Both then
        (if int32 (s.delay_count + 1) = 10 then 0 else int32 (s.delay_count + 1))
      else 0 := by
  unfold mainLoopBody stepHold modifierState sw1 sw2
  by_cases h1 : (but0 inp &&& B.BUTTON_SW1_bm) = 0 <;>
  by_cases h2 : (but0 inp &&& B.BUTTON_SW2_bm) = 0 <;>
  simp [h1, h2]
  split_ifs <;> rfl

theorem mainLoopBody_draws (B : Board) (s : State) (inp : Input) :
    (mainLoopBody B s inp).2 = render (mainLoopBody B s inp).1.cnt0 s.cnt1 := rfl

theorem mainLoopBody_joyst1 (B : Board) (s : State) (inp : Input) :
    (mainLoopBody B s inp).1.joyst1 = joyst0 inp := rfl

theorem mainLoop_append (B : Board) (s : State) (l1 l2 : List Input) :
    mainLoop B s (l1 ++ l2) = mainLoop B (mainLoop B s l1) l2 := by
  induction l1 generalizing s with
  | nil => rfl
  | cons inp rest ih => exact ih _

theorem setValue_inRange (d : Dir) : inRange (setValue d) := by
  cases d <;> decide

/-- With exactly the edge of `d` raised, `d` is the first edge. -/
theorem firstEdge_of_only (B : Board) (s : State) (inp : Input) (d : Dir)
    (h : ∀ e, edge B s inp e ↔ e = d) : firstEdge B s inp = some d := by
  have hu := h Dir.Up
  have hd := h Dir.Down
  have hl := h Dir.Left
  have hr := h Dir.Right
  unfold firstEdge
  cases d <;> simp_all

/-- While both buttons stay pressed and the hold timer stays below ten, the counter is kept
and the hold timer counts the passes. -/
theorem mainLoop_hold (B : Board) (inputs : List Input) (s : State)
    (hboth : ∀ i ∈ inputs, modifierState B i = ModifierState.Both)
    (h0 : 0 ≤ s.delay_count) (h9 : s.delay_count + inputs.length < 10) :
    (mainLoop B s inputs).cnt0 = s.cnt0 ∧
      (mainLoop B s inputs).delay_count = s.delay_count + inputs.length := by
  induction inputs generalizing s with
  | nil => simp [mainLoop]
  | cons inp rest ih =>
    have hb : modifierState B inp = ModifierState.Both := hboth inp (List.mem_cons_self _ _)
    have hlen : ((inp :: rest).length : Int) = (rest.length : Int) + 1 := by simp
    rw [hlen] at h9
    have hw : int32 (s.delay_count + 1) = s.delay_count + 1 :=
      int32_eq_self (by omega) (by omega)
    have hc : (mainLoopBody B s inp).1.cnt0 = s.cnt0 := by
      rw [mainLoopBody_cnt0, hb]
      simp only [hw]
      rw [if_neg (by omega)]
    have hd : (mainLoopBody B s inp).1.delay_count = s.delay_count + 1 := by
      rw [mainLoopBody_delay_count, if_pos hb, hw, if_neg (by omega)]
    have hrest := ih (mainLoopBody B s inp).1
      (fun i hi => hboth i (List.mem_cons_of_mem _ hi)) (by omega) (by omega)
    rw [hc, hd] at hrest
    refine ⟨hrest.1, ?_⟩
    show (mainLoop B (mainLoopBody B s inp).1 rest).delay_count = _
    rw [hrest.2, hlen]
    omega

/-- A pass with no rising edge and not both buttons pressed keeps the counter. -/
theorem mainLoopBody_cnt0_of_no_edge (B : Board) (s : State) (inp : Input)
    (hm : modifierState B inp ≠ ModifierState.Both) (hf : firstEdge B s inp = none) :
    (mainLoopBody B s inp).1.cnt0 = s.cnt0 := by
  rw [mainLoopBody_cnt0]
  cases hmm : modifierState B inp <;> simp_all

/-! ## C1: range of the counter -/

/-- C1, violated by the code: the counter is to stay within `CNT_MIN .. CNT_MAX` (the
comments of lines 20, 181 and 205 name them its minimum, maximum and limits), but no
relative step is checked against them. From the initial state, SW2 with an Up edge sets
the counter to 15000, the release pass keeps it, and an Up edge with no button pressed
then runs `cnt0 += CNT_STEP_1` (line 110) and gives 15001, which is above `CNT_MAX`. -/
theorem C1_counter_leaves_range :
    (mainLoop sampleBoard (mainInit allHigh)
        [Input.mk (low sampleBoard.JOYSTICK_UP_bm) (low sampleBoard.BUTTON_SW2_bm),
         Input.mk allHigh allHigh,
         Input.mk (low sampleBoard.JOYSTICK_UP_bm) allHigh]).cnt0 = 15001 ∧
    ¬ inRange (mainLoop sampleBoard (mainInit allHigh)
        [Input.mk (low sampleBoard.JOYSTICK_UP_bm) (low sampleBoard.BUTTON_SW2_bm),
         Input.mk allHigh allHigh,
         Input.mk (low sampleBoard.JOYSTICK_UP_bm) allHigh]).cnt0 := by
  decide

/-! ## C2: relative steps that leave the range -/

/-- C2, violated by the code at the scenario of the claim: the state with counter 15000 is
reached from the initial state, and a pass with no button pressed and an Up edge, whose
step would leave `CNT_MIN .. CNT_MAX`, is not discarded: line 110 applies it and the
counter is 15001 after the pass, not 15000. -/
theorem C2_step_not_discarded :
    mainLoop sampleBoard (mainInit allHigh)
        [Input.mk (low sampleBoard.JOYSTICK_UP_bm) (low sampleBoard.BUTTON_SW2_bm),
         Input.mk allHigh allHigh] = State.mk 0 15000 15000 0 ∧
    modifierState sampleBoard (Input.mk (low sampleBoard.JOYSTICK_UP_bm) allHigh)
      = ModifierState.None ∧
    firstEdge sampleBoard (State.mk 0 15000 15000 0)
      (Input.mk (low sampleBoard.JOYSTICK_UP_bm) allHigh) = some Dir.Up ∧
    (mainLoopBody sampleBoard (State.mk 0 15000 15000 0)
      (Input.mk (low sampleBoard.JOYSTICK_UP_bm) allHigh)).1.cnt0 = 15001 ∧
    (mainLoopBody sampleBoard (State.mk 0 15000 15000 0)
      (Input.mk (low sampleBoard.JOYSTICK_UP_bm) allHigh)).1.cnt0 ≠ 15000 := by
  decide

/-! ## C3, C4: the step tables -/

/-- C3: for every counter value and every pass with exactly one rising edge among Up, Down,
Left, Right whose result stays within `CNT_MIN .. CNT_MAX`, the counter after the pass is
the old one plus the table entry: +1, -1, -10, +10 with no button pressed and +100, -100,
-1000, +1000 with only SW1 pressed (`relStep`). -/
theorem C3_relative_step_table (B : Board) (s : State) (inp : Input) (d : Dir)
    (hm : modifierState B inp = ModifierState.None ∨
      modifierState B inp = ModifierState.Primary)
    (hedge : ∀ e, edge B s inp e ↔ e = d)
    (hin : inRange (s.cnt0 + relStep (modifierState B inp) d)) :
    (mainLoopBody B s inp).1.cnt0 = s.cnt0 + relStep (modifierState B inp) d := by
  rw [mainLoopBody_cnt0, firstEdge_of_only B s inp d hedge]
  rcases hm with hm | hm <;> rw [hm] at hin ⊢ <;> exact int32_of_inRange hin

theorem C3_relative_step_table_witness :
    (mainLoopBody sampleBoard (State.mk 0 40 40 0)
        (Input.mk (low sampleBoard.JOYSTICK_LEFT_bm) (low sampleBoard.BUTTON_SW1_bm))).1.cnt0 =
      40 + relStep (modifierState sampleBoard
        (Input.mk (low sampleBoard.JOYSTICK_LEFT_bm) (low sampleBoard.BUTTON_SW1_bm)))
        Dir.Left :=
  C3_relative_step_table sampleBoard (State.mk 0 40 40 0)
    (Input.mk (low sampleBoard.JOYSTICK_LEFT_bm) (low sampleBoard.BUTTON_SW1_bm)) Dir.Left
    (by decide) (by intro e; cases e <;> decide) (by decide)

/-- C4: whatever the prior counter value, a pass with only SW2 pressed and exactly one rising
edge sets the counter to `CNT_MAX` = 15000 on Up, `CNT_MIN` = -8000 on Down, 0 on Left and
`(CNT_MAX + CNT_MIN) / 2` = 3500 on Right. -/
theorem C4_absolute_set_table (B : Board) (s : State) (inp : Input) (d : Dir)
    (hm : modifierState B inp = ModifierState.Secondary)
    (hedge : ∀ e, edge B s inp e ↔ e = d) :
    (mainLoopBody B s inp).1.cnt0 = setValue d ∧
      setValue Dir.Up = CNT_MAX ∧ setValue Dir.Down = CNT_MIN ∧ setValue Dir.Left = 0 ∧
      setValue Dir.Right = Int.tdiv (CNT_MAX + CNT_MIN) 2 ∧
      CNT_MAX = 15000 ∧ CNT_MIN = -8000 ∧ Int.tdiv (CNT_MAX + CNT_MIN) 2 = 3500 := by
  refine ⟨?_, by decide, by decide, by decide, by decide, by decide, by decide, by decide⟩
  rw [mainLoopBody_cnt0, firstEdge_of_only B s inp d hedge, hm]

theorem C4_absolute_set_table_witness :
    (mainLoopBody sampleBoard (State.mk 0 (-777) (-777) 0)
        (Input.mk (low sampleBoard.JOYSTICK_LEFT_bm) (low sampleBoard.BUTTON_SW2_bm))).1.cnt0 =
      0 :=
  (C4_absolute_set_table sampleBoard (State.mk 0 (-777) (-777) 0)
    (Input.mk (low sampleBoard.JOYSTICK_LEFT_bm) (low sampleBoard.BUTTON_SW2_bm)) Dir.Left
    (by decide) (by intro e; cases e <;> decide)).1

/-! ## C5: a held direction -/

theorem testBit_bnot32 (x i : Nat) :
    (bnot32 x).testBit i = (decide (i < 32) && !x.testBit i) := by
  have hlt : x % 2 ^ 32 < 2 ^ 32 := Nat.mod_lt _ (by norm_num)
  have h : bnot32 x = 2 ^ 32 - (x % 2 ^ 32 + 1) := by unfold bnot32; omega
  rw [h, Nat.testBit_two_pow_sub_succ hlt, Nat.testBit_mod_two_pow]
  cases decide (i < 32) <;> simp

/-- Lines of a mask that read the same as in the previous sample raise no edge. -/
theorem edge_eq_zero_of_unchanged (j1 p m : Nat)
    (h : bnot32 p &&& m = j1 &&& m) : (bnot32 j1 &&& bnot32 p) &&& m = 0 := by
  apply Nat.eq_of_testBit_eq
  intro i
  have hi := congrArg (fun x => x.testBit i) h
  simp only [Nat.testBit_and, testBit_bnot32] at hi
  simp only [Nat.testBit_and, testBit_bnot32, Nat.zero_testBit]
  cases hj : j1.testBit i <;> cases hp : p.testBit i <;> cases hm : m.testBit i <;>
    cases h32 : decide (i < 32) <;> simp_all

/-- On lines that were released in the previous sample the edge word is the sample. -/
theorem edge_eq_of_released (j1 p m : Nat)
    (h : j1 &&& m = 0) : (bnot32 j1 &&& bnot32 p) &&& m = bnot32 p &&& m := by
  apply Nat.eq_of_testBit_eq
  intro i
  have hi := congrArg (fun x => x.testBit i) h
  simp only [Nat.testBit_and, Nat.zero_testBit] at hi
  simp only [Nat.testBit_and, testBit_bnot32]
  cases hj : j1.testBit i <;> cases hp : p.testBit i <;> cases hm : m.testBit i <;>
    cases h32 : decide (i < 32) <;> simp_all

theorem and_two_pow_of_ne_zero (x k : Nat) (h : x &&& 2 ^ k ≠ 0) : x &&& 2 ^ k = 2 ^ k := by
  rw [Nat.and_two_pow] at h ⊢
  cases hb : x.testBit k <;> simp_all

/-- A run in which every direction reads as in the sample before it raises no edge of `d`
and, with never both buttons pressed, keeps the counter. -/
theorem mainLoop_unchanged_joystick (B : Board) (d : Dir) (inputs : List Input) (t : State)
    (hsame : ∀ e, ∀ i ∈ inputs, joyst0 i &&& B.mask e = t.joyst1 &&& B.mask e)
    (hnb : ∀ i ∈ inputs, modifierState B i ≠ ModifierState.Both) :
    edgeFlags B d t inputs = List.replicate inputs.length false ∧
      (mainLoop B t inputs).cnt0 = t.cnt0 := by
  induction inputs generalizing t with
  | nil => exact ⟨rfl, rfl⟩
  | cons inp rest ih =>
    have hno : ∀ e, ¬ edge B t inp e := by
      intro e
      have h := edge_eq_zero_of_unchanged t.joyst1 inp.joystick (B.mask e)
        (hsame e inp (List.mem_cons_self _ _))
      unfold edge joystREdge joyst0
      simp [h]
    have hf : firstEdge B t inp = none := by
      unfold firstEdge
      simp [hno]
    have hc := mainLoopBody_cnt0_of_no_edge B t inp (hnb inp (List.mem_cons_self _ _)) hf
    have hrest := ih (mainLoopBody B t inp).1
      (fun e i hi => by
        rw [mainLoopBody_joyst1, hsame e i (List.mem_cons_of_mem _ hi),
          hsame e inp (List.mem_cons_self _ _)])
      (fun i hi => hnb i (List.mem_cons_of_mem _ hi))
    constructor
    · show decide (edge B t inp d) :: edgeFlags B d (mainLoopBody B t inp).1 rest = _
      rw [hrest.1]
      simp [hno d, List.replicate_succ]
    · show (mainLoop B (mainLoopBody B t inp).1 rest).cnt0 = _
      rw [hrest.2, hc]

/-- C5: for every direction `d` on a single line (mask `2 ^ k`) and every hold of N ≥ 1 passes
(`first :: rest`): if `d` was released in the sample before the hold and reads pressed in
every pass of the hold, no other direction changes and never both buttons are pressed, then
the rising-edge flag of `d` is true in the first pass and false in the other N-1 passes,
and the counter after pass N equals the counter after pass 1. -/
theorem C5_held_direction_fires_once (B : Board) (s : State) (d : Dir) (k : Nat)
    (first : Input) (rest : List Input)
    (hmask : B.mask d = 2 ^ k)
    (hrel : s.joyst1 &&& B.mask d = 0)
    (hheld : ∀ i ∈ first :: rest, joyst0 i &&& B.mask d ≠ 0)
    (hother : ∀ e, e ≠ d → ∀ i ∈ first :: rest,
      joyst0 i &&& B.mask e = s.joyst1 &&& B.mask e)
    (hnb : ∀ i ∈ first :: rest, modifierState B i ≠ ModifierState.Both) :
    edgeFlags B d s (first :: rest) = true :: List.replicate rest.length false ∧
      (mainLoop B s (first :: rest)).cnt0 = (mainLoopBody B s first).1.cnt0 := by
  have hfirst : edge B s first d := by
    unfold edge joystREdge joyst0
    rw [edge_eq_of_released s.joyst1 first.joystick (B.mask d) hrel]
    exact hheld first (List.mem_cons_self _ _)
  have hpress : ∀ i ∈ first :: rest, joyst0 i &&& B.mask d = 2 ^ k := by
    intro i hi
    have h := hheld i hi
    rw [hmask] at h ⊢
    exact and_two_pow_of_ne_zero _ _ h
  have htail := mainLoop_unchanged_joystick B d rest (mainLoopBody B s first).1
    (fun e i hi => by
      rw [mainLoopBody_joyst1]
      by_cases he : e = d
      · subst he
        rw [hpress i (List.mem_cons_of_mem _ hi), hpress first (List.mem_cons_self _ _)]
      · rw [hother e he i (List.mem_cons_of_mem _ hi),
          hother e he first (List.mem_cons_self _ _)])
    (fun i hi => hnb i (List.mem_cons_of_mem _ hi))
  constructor
  · show decide (edge B s first d) :: edgeFlags B d (mainLoopBody B s first).1 rest = _
    rw [htail.1]
    simp [hfirst]
  · exact htail.2

theorem C5_held_direction_fires_once_witness :
    edgeFlags sampleBoard Dir.Right (State.mk 0 7 7 0)
        [Input.mk (low sampleBoard.JOYSTICK_RIGHT_bm) allHigh,
         Input.mk (low sampleBoard.JOYSTICK_RIGHT_bm) (low sampleBoard.BUTTON_SW1_bm),
         Input.mk (low sampleBoard.JOYSTICK_RIGHT_bm) allHigh] =
      true :: List.replicate 2 false ∧
    (mainLoop sampleBoard (State.mk 0 7 7 0)
        [Input.mk (low sampleBoard.JOYSTICK_RIGHT_bm) allHigh,
         Input.mk (low sampleBoard.JOYSTICK_RIGHT_bm) (low sampleBoard.BUTTON_SW1_bm),
         Input.mk (low sampleBoard.JOYSTICK_RIGHT_bm) allHigh]).cnt0 =
      (mainLoopBody sampleBoard (State.mk 0 7 7 0)
        (Input.mk (low sampleBoard.JOYSTICK_RIGHT_bm) allHigh)).1.cnt0 :=
  C5_held_direction_fires_once sampleBoard (State.mk 0 7 7 0) Dir.Right 14
    (Input.mk (low sampleBoard.JOYSTICK_RIGHT_bm) allHigh)
    [Input.mk (low sampleBoard.JOYSTICK_RIGHT_bm) (low sampleBoard.BUTTON_SW1_bm),
     Input.mk (low sampleBoard.JOYSTICK_RIGHT_bm) allHigh]
    (by decide) (by decide) (by decide)
    (by intro e he; cases e <;> first | exact absurd rfl he | decide)
    (by decide)

/-! ## C6: one action per pass -/

/-- C6: for every counter value, every modifier state among None, Primary, Secondary and
every non-empty set of simultaneous rising edges, the counter after the pass equals the
counter after a pass from the same counter value with the same modifier state in which
only the first edge of that set, in the order Up, Down, Left, Right, is raised. -/
theorem C6_single_action_priority (B : Board) (s s' : State) (inp inp' : Input) (d : Dir)
    (hc : s'.cnt0 = s.cnt0)
    (hm : modifierState B inp' = modifierState B inp)
    (hnb : modifierState B inp ≠ ModifierState.Both)
    (hfirst : firstEdge B s inp = some d)
    (honly : ∀ e, edge B s' inp' e ↔ e = d) :
    (mainLoopBody B s inp).1.cnt0 = (mainLoopBody B s' inp').1.cnt0 := by
  rw [mainLoopBody_cnt0, mainLoopBody_cnt0, firstEdge_of_only B s' inp' d honly, hfirst,
    hm, hc]
  cases hmm : modifierState B inp <;> simp_all

theorem C6_single_action_priority_witness :
    (mainLoopBody sampleBoard (State.mk 0 5 5 0)
        (Input.mk (low (sampleBoard.JOYSTICK_DOWN_bm + sampleBoard.JOYSTICK_RIGHT_bm))
          allHigh)).1.cnt0 =
      (mainLoopBody sampleBoard (State.mk 0 5 7 0)
        (Input.mk (low sampleBoard.JOYSTICK_DOWN_bm) allHigh)).1.cnt0 :=
  C6_single_action_priority sampleBoard (State.mk 0 5 5 0) (State.mk 0 5 7 0)
    (Input.mk (low (sampleBoard.JOYSTICK_DOWN_bm + sampleBoard.JOYSTICK_RIGHT_bm)) allHigh)
    (Input.mk (low sampleBoard.JOYSTICK_DOWN_bm) allHigh) Dir.Down
    (by decide) (by decide) (by decide) (by decide) (by intro e; cases e <;> decide)

/-! ## C7, C8: the long press of both buttons -/

/-- C7: from hold timer 0 and any counter value, when both buttons are pressed on exactly ten
consecutive passes (joystick samples arbitrary), the counter keeps its value after each of
the passes 1 to 9, is 0 after pass 10, and the hold timer is 0 again after pass 10. -/
theorem C7_long_press_reset (B : Board) (s : State) (inputs : List Input)
    (h0 : s.delay_count = 0) (hlen : inputs.length = 10)
    (hboth : ∀ i ∈ inputs, modifierState B i = ModifierState.Both) :
    (∀ k, 1 ≤ k → k ≤ 9 → (mainLoop B s (inputs.take k)).cnt0 = s.cnt0) ∧
      (mainLoop B s inputs).cnt0 = 0 ∧ (mainLoop B s inputs).delay_count = 0 := by
  have htake : ∀ k, k ≤ 9 → (mainLoop B s (inputs.take k)).cnt0 = s.cnt0 ∧
      (mainLoop B s (inputs.take k)).delay_count = k := by
    intro k hk
    have hl : (inputs.take k).length = k := by
      rw [List.length_take]; omega
    have h := mainLoop_hold B (inputs.take k) s
      (fun i hi => hboth i (List.mem_of_mem_take hi)) (by omega) (by rw [hl, h0]; omega)
    rw [hl, h0] at h
    simpa using h
  refine ⟨fun k _ hk => (htake k hk).1, ?_⟩
  obtain ⟨_, hd9⟩ := htake 9 (le_refl 9)
  have hsplit : inputs = inputs.take 9 ++ inputs.drop 9 := (List.take_append_drop 9 inputs).symm
  have hdrop : (inputs.drop 9).length = 1 := by
    rw [List.length_drop]; omega
  obtain ⟨last, hlast⟩ := List.length_eq_one.mp hdrop
  have hb : modifierState B last = ModifierState.Both := by
    apply hboth
    rw [hsplit, hlast]
    simp
  rw [hsplit, hlast, mainLoop_append]
  show (mainLoopBody B (mainLoop B s (inputs.take 9)) last).1.cnt0 = 0 ∧
    (mainLoopBody B (mainLoop B s (inputs.take 9)) last).1.delay_count = 0
  have h10 : int32 10 = 10 := by decide
  rw [mainLoopBody_cnt0, mainLoopBody_delay_count, hb, hd9]
  simp [h10]

theorem C7_long_press_reset_witness :
    (∀ k, 1 ≤ k → k ≤ 9 →
      (mainLoop sampleBoard (State.mk 0 321 321 0)
        ((List.replicate 10 (Input.mk (low sampleBoard.JOYSTICK_UP_bm)
          (low (sampleBoard.BUTTON_SW1_bm + sampleBoard.BUTTON_SW2_bm)))).take k)).cnt0
        = 321) ∧
    (mainLoop sampleBoard (State.mk 0 321 321 0)
        (List.replicate 10 (Input.mk (low sampleBoard.JOYSTICK_UP_bm)
          (low (sampleBoard.BUTTON_SW1_bm + sampleBoard.BUTTON_SW2_bm))))).cnt0 = 0 ∧
    (mainLoop sampleBoard (State.mk 0 321 321 0)
        (List.replicate 10 (Input.mk (low sampleBoard.JOYSTICK_UP_bm)
          (low (sampleBoard.BUTTON_SW1_bm + sampleBoard.BUTTON_SW2_bm))))).delay_count = 0 :=
  C7_long_press_reset sampleBoard (State.mk 0 321 321 0)
    (List.replicate 10 (Input.mk (low sampleBoard.JOYSTICK_UP_bm)
      (low (sampleBoard.BUTTON_SW1_bm + sampleBoard.BUTTON_SW2_bm))))
    rfl (by decide) (by decide)

/-- C8: from hold timer 0 and any counter value, holding both buttons for k passes with
1 ≤ k ≤ 9 and then running one pass in which not both buttons are pressed and no rising edge
occurs leaves the counter unchanged and the hold timer at 0; and every pass in which not
both buttons are pressed ends with hold timer 0. -/
theorem C8_early_release (B : Board) (s : State) (holds : List Input) (inp : Input)
    (h0 : s.delay_count = 0) (hk1 : 1 ≤ holds.length) (hk9 : holds.length ≤ 9)
    (hboth : ∀ i ∈ holds, modifierState B i = ModifierState.Both)
    (hrel : modifierState B inp ≠ ModifierState.Both)
    (hno : firstEdge B (mainLoop B s holds) inp = none) :
    (mainLoop B s (holds ++ [inp])).cnt0 = s.cnt0 ∧
      (mainLoop B s (holds ++ [inp])).delay_count = 0 ∧
      ∀ (t : State) (j : Input), modifierState B j ≠ ModifierState.Both →
        (mainLoopBody B t j).1.delay_count = 0 := by
  have hgen : ∀ (t : State) (j : Input), modifierState B j ≠ ModifierState.Both →
      (mainLoopBody B t j).1.delay_count = 0 := by
    intro t j hj
    rw [mainLoopBody_delay_count, if_neg hj]
  have hh := mainLoop_hold B holds s hboth (by omega) (by rw [h0]; omega)
  refine ⟨?_, ?_, hgen⟩
  · rw [mainLoop_append]
    show (mainLoopBody B (mainLoop B s holds) inp).1.cnt0 = s.cnt0
    rw [mainLoopBody_cnt0_of_no_edge B _ inp hrel hno, hh.1]
  · rw [mainLoop_append]
    exact hgen _ inp hrel

theorem C8_early_release_witness :
    (mainLoop sampleBoard (State.mk 0 321 321 0)
        (List.replicate 9 (Input.mk allHigh
          (low (sampleBoard.BUTTON_SW1_bm + sampleBoard.BUTTON_SW2_bm))) ++
          [Input.mk allHigh (low sampleBoard.BUTTON_SW1_bm)])).cnt0 = 321 ∧
    (mainLoop sampleBoard (State.mk 0 321 321 0)
        (List.replicate 9 (Input.mk allHigh
          (low (sampleBoard.BUTTON_SW1_bm + sampleBoard.BUTTON_SW2_bm))) ++
          [Input.mk allHigh (low sampleBoard.BUTTON_SW1_bm)])).delay_count = 0 :=
  have h := C8_early_release sampleBoard (State.mk 0 321 321 0)
    (List.replicate 9 (Input.mk allHigh
      (low (sampleBoard.BUTTON_SW1_bm + sampleBoard.BUTTON_SW2_bm))))
    (Input.mk allHigh (low sampleBoard.BUTTON_SW1_bm))
    rfl (by decide) (by decide) (by decide) (by decide) (by decide)
  ⟨h.1, h.2.1⟩

/-! ## C9, C10: the render gate -/

/-- C9: a pass whose resulting counter value equals the render cache `cnt1` (the counter
value stored at the end of the previous pass) makes no LCD call at all. -/
theorem C9_render_gate_noop (B : Board) (s : State) (inp : Input)
    (h : (mainLoopBody B s inp).1.cnt0 = s.cnt1) :
    (mainLoopBody B s inp).2 = [] := by
  rw [mainLoopBody_draws, h]
  unfold render
  simp

theorem C9_render_gate_noop_witness :
    (mainLoopBody sampleBoard (State.mk 0 15000 15000 0)
      (Input.mk allHigh (low sampleBoard.BUTTON_SW1_bm))).2 = [] :=
  C9_render_gate_noop sampleBoard (State.mk 0 15000 15000 0)
    (Input.mk allHigh (low sampleBoard.BUTTON_SW1_bm)) (by decide)

theorem render_ne_nil {c c1 : Int} (h : render c c1 ≠ []) : c ≠ c1 ∧ inRange c := by
  by_cases hg : c ≠ c1 ∧ c < CNT_MAX + 1 ∧ c > CNT_MIN - 1
  · unfold inRange
    exact ⟨hg.1, by omega, by omega⟩
  · exact absurd (by unfold render; rw [if_neg hg]) h

/-- The LCD calls of a pass that passes the gate. -/
theorem render_of_gate {c c1 : Int} (hne : c ≠ c1) (hin : inRange c) :
    render c c1 =
      [Cmd.LCDGotoXY 5 50, Cmd.LCDCharColor Color.YELLOW Color.BLUE,
        Cmd.LCDPutStr (sprintf6d "Cnt=" c),
       Cmd.LCDGotoXY 5 30, Cmd.LCDCharColor Color.BLACK Color.GREEN,
        Cmd.LCDPutStr (sprintf6d "MAX=" 15000),
       Cmd.LCDGotoXY 5 70, Cmd.LCDCharColor Color.BLACK Color.GREEN,
        Cmd.LCDPutStr (sprintf6d "MIN=" (-8000))] ++
      (if c = 15000 then
        [Cmd.LCDGotoXY 5 50, Cmd.LCDCharColor Color.YELLOW Color.RED,
          Cmd.LCDPutStr (sprintf6d "Cnt=" c),
         Cmd.LCDGotoXY 95 50, Cmd.LCDCharColor Color.YELLOW Color.RED, Cmd.LCDPutStr "MAX"]
      else if c = -8000 then
        [Cmd.LCDGotoXY 5 50, Cmd.LCDCharColor Color.YELLOW Color.RED,
          Cmd.LCDPutStr (sprintf6d "Cnt=" c),
         Cmd.LCDGotoXY 95 50, Cmd.LCDCharColor Color.YELLOW Color.RED, Cmd.LCDPutStr "MIN"]
      else
        [Cmd.LCDGotoXY 95 50, Cmd.LCDCharColor Color.BLACK Color.BLACK,
          Cmd.LCDPutStr "   "]) := by
  unfold inRange CNT_MIN CNT_MAX at hin
  unfold render CNT_MAX CNT_MIN
  rw [if_pos ⟨hne, by omega, by omega⟩]
  by_cases h1 : c = 15000
  · subst h1; simp
  · by_cases h2 : c = -8000
    · subst h2; simp
    · simp [h1, h2]

theorem decimal_length_le {n : Int} (h : inRange n) : (decimal n).length ≤ 6 := by
  unfold inRange CNT_MIN CNT_MAX at h
  unfold decimal Nat.toDigits
  split_ifs with hneg
  · have hlt : n.natAbs < 10 ^ 4 := by omega
    have := Nat.toDigitsCore_length 10 (by decide) (n.natAbs + 1) n.natAbs 4 hlt (by decide)
    simp only [List.length_cons]
    omega
  · have hlt : n.natAbs < 10 ^ 5 := by omega
    have := Nat.toDigitsCore_length 10 (by decide) (n.natAbs + 1) n.natAbs 5 hlt (by decide)
    omega

theorem sprintf6d_length (label : String) {n : Int} (h : (decimal n).length ≤ 6) :
    (sprintf6d label n).length = label.length + 7 := by
  unfold sprintf6d pad6
  simp only [String.length, List.length_append, List.length_replicate, List.length_singleton,
    String.toList]
  omega

/-! ## C11, C12: what is drawn -/

/-- C11: whenever a pass makes LCD calls, the counter value formatted into the "Cnt=" text
is the counter at the end of the pass and satisfies `CNT_MIN ≤ value ≤ CNT_MAX`; that is,
a pass whose resulting counter is outside the range draws nothing. -/
theorem C11_drawn_counter_in_range (B : Board) (s : State) (inp : Input)
    (h : (mainLoopBody B s inp).2 ≠ []) :
    (CNT_MIN ≤ (mainLoopBody B s inp).1.cnt0 ∧ (mainLoopBody B s inp).1.cnt0 ≤ CNT_MAX) ∧
      (mainLoopBody B s inp).2.take 3 =
        [Cmd.LCDGotoXY 5 50, Cmd.LCDCharColor Color.YELLOW Color.BLUE,
          Cmd.LCDPutStr (sprintf6d "Cnt=" (mainLoopBody B s inp).1.cnt0)] := by
  rw [mainLoopBody_draws] at h ⊢
  obtain ⟨hne, hin⟩ := render_ne_nil h
  refine ⟨hin, ?_⟩
  rw [render_of_gate hne hin]
  rfl

theorem C11_drawn_counter_in_range_witness :
    (CNT_MIN ≤ (mainLoopBody sampleBoard (State.mk 0 15001 15001 0)
        (Input.mk (low sampleBoard.JOYSTICK_DOWN_bm) allHigh)).1.cnt0 ∧
      (mainLoopBody sampleBoard (State.mk 0 15001 15001 0)
        (Input.mk (low sampleBoard.JOYSTICK_DOWN_bm) allHigh)).1.cnt0 ≤ CNT_MAX) ∧
    (mainLoopBody sampleBoard (State.mk 0 15001 15001 0)
        (Input.mk (low sampleBoard.JOYSTICK_DOWN_bm) allHigh)).2.take 3 =
      [Cmd.LCDGotoXY 5 50, Cmd.LCDCharColor Color.YELLOW Color.BLUE,
        Cmd.LCDPutStr (sprintf6d "Cnt=" (mainLoopBody sampleBoard (State.mk 0 15001 15001 0)
          (Input.mk (low sampleBoard.JOYSTICK_DOWN_bm) allHigh)).1.cnt0)] :=
  C11_drawn_counter_in_range sampleBoard (State.mk 0 15001 15001 0)
    (Input.mk (low sampleBoard.JOYSTICK_DOWN_bm) allHigh) (by decide)

/-- C12: for every pass that renders, if the new counter equals `CNT_MAX` the LCD calls end
with the counter text at (5,50) in YELLOW on RED followed by the tag "MAX" at (95,50); if it
equals `CNT_MIN` they end the same way with the tag "MIN"; for every other value they end
with three spaces at (95,50) in BLACK on BLACK and contain no call selecting YELLOW on
RED. -/
theorem C12_boundary_styling (B : Board) (s : State) (inp : Input)
    (h : (mainLoopBody B s inp).2 ≠ []) :
    ((mainLoopBody B s inp).1.cnt0 = CNT_MAX →
      [Cmd.LCDGotoXY 5 50, Cmd.LCDCharColor Color.YELLOW Color.RED,
        Cmd.LCDPutStr (sprintf6d "Cnt=" (mainLoopBody B s inp).1.cnt0),
       Cmd.LCDGotoXY 95 50, Cmd.LCDCharColor Color.YELLOW Color.RED, Cmd.LCDPutStr "MAX"]
        <:+ (mainLoopBody B s inp).2) ∧
    ((mainLoopBody B s inp).1.cnt0 = CNT_MIN →
      [Cmd.LCDGotoXY 5 50, Cmd.LCDCharColor Color.YELLOW Color.RED,
        Cmd.LCDPutStr (sprintf6d "Cnt=" (mainLoopBody B s inp).1.cnt0),
       Cmd.LCDGotoXY 95 50, Cmd.LCDCharColor Color.YELLOW Color.RED, Cmd.LCDPutStr "MIN"]
        <:+ (mainLoopBody B s inp).2) ∧
    ((mainLoopBody B s inp).1.cnt0 ≠ CNT_MAX → (mainLoopBody B s inp).1.cnt0 ≠ CNT_MIN →
      [Cmd.LCDGotoXY 95 50, Cmd.LCDCharColor Color.BLACK Color.BLACK, Cmd.LCDPutStr "   "]
        <:+ (mainLoopBody B s inp).2 ∧
      Cmd.LCDCharColor Color.YELLOW Color.RED ∉ (mainLoopBody B s inp).2) := by
  rw [mainLoopBody_draws] at h ⊢
  obtain ⟨hne, hin⟩ := render_ne_nil h
  rw [render_of_gate hne hin]
  generalize (mainLoopBody B s inp).1.cnt0 = c
  unfold CNT_MAX CNT_MIN
  refine ⟨fun hc => ?_, fun hc => ?_, fun h1 h2 => ?_⟩
  · rw [if_pos hc]
    exact List.suffix_append _ _
  · rw [if_neg (by omega), if_pos hc]
    exact List.suffix_append _ _
  · rw [if_neg h1, if_neg h2]
    exact ⟨List.suffix_append _ _, by simp⟩

theorem C12_boundary_styling_witness :
    (mainLoopBody sampleBoard (State.mk 0 14999 14999 0)
        (Input.mk (low sampleBoard.JOYSTICK_UP_bm) allHigh)).1.cnt0 = 15000 ∧
    sprintf6d "Cnt=" 15000 = "Cnt= 15000 " ∧
    [Cmd.LCDGotoXY 5 50, Cmd.LCDCharColor Color.YELLOW Color.RED,
      Cmd.LCDPutStr (sprintf6d "Cnt=" (mainLoopBody sampleBoard (State.mk 0 14999 14999 0)
        (Input.mk (low sampleBoard.JOYSTICK_UP_bm) allHigh)).1.cnt0),
     Cmd.LCDGotoXY 95 50, Cmd.LCDCharColor Color.YELLOW Color.RED, Cmd.LCDPutStr "MAX"]
      <:+ (mainLoopBody sampleBoard (State.mk 0 14999 14999 0)
        (Input.mk (low sampleBoard.JOYSTICK_UP_bm) allHigh)).2 :=
  ⟨by decide, by decide,
    (C12_boundary_styling sampleBoard (State.mk 0 14999 14999 0)
      (Input.mk (low sampleBoard.JOYSTICK_UP_bm) allHigh) (by decide)).1 (by decide)⟩

/-! ## C15: length of the texts -/

/-- C15: for every pass that renders, the three formatted texts "Cnt=%6d ", "MAX=%6d ",
"MIN=%6d " have exactly 11 characters (the rendered counter, `CNT_MAX` and `CNT_MIN` need at
most 6 characters in decimal, sign included), the tag texts have exactly 3 characters, and
so every text handed to `LCDPutStr` has at most 15 characters. -/
theorem C15_texts_fit (B : Board) (s : State) (inp : Input)
    (h : (mainLoopBody B s inp).2 ≠ []) :
    ((decimal (mainLoopBody B s inp).1.cnt0).length ≤ 6 ∧
      (decimal CNT_MAX).length ≤ 6 ∧ (decimal CNT_MIN).length ≤ 6) ∧
    ((sprintf6d "Cnt=" (mainLoopBody B s inp).1.cnt0).length = 11 ∧
      (sprintf6d "MAX=" CNT_MAX).length = 11 ∧ (sprintf6d "MIN=" CNT_MIN).length = 11) ∧
    ("MIN".length = 3 ∧ "MAX".length = 3 ∧ "   ".length = 3) ∧
    ∀ txt, Cmd.LCDPutStr txt ∈ (mainLoopBody B s inp).2 →
      (txt.length = 11 ∨ txt.length = 3) ∧ txt.length ≤ 15 := by
  rw [mainLoopBody_draws] at h ⊢
  obtain ⟨hne, hin⟩ := render_ne_nil h
  have hc := decimal_length_le hin
  have hmax : (decimal CNT_MAX).length ≤ 6 := decimal_length_le (by decide)
  have hmin : (decimal CNT_MIN).length ≤ 6 := decimal_length_le (by decide)
  have lc := sprintf6d_length "Cnt=" hc
  have lmax := sprintf6d_length "MAX=" hmax
  have lmin := sprintf6d_length "MIN=" hmin
  have l4 : "Cnt=".length = 4 ∧ "MAX=".length = 4 ∧ "MIN=".length = 4 := by decide
  rw [l4.1] at lc
  rw [l4.2.1] at lmax
  rw [l4.2.2] at lmin
  have l3 : "MIN".length = 3 ∧ "MAX".length = 3 ∧ "   ".length = 3 := by decide
  refine ⟨⟨hc, hmax, hmin⟩, ⟨lc, lmax, lmin⟩, l3, ?_⟩
  intro txt htxt
  rw [render_of_gate hne hin] at htxt
  have lmax2 : (sprintf6d "MAX=" 15000).length = 11 := lmax
  have lmin2 : (sprintf6d "MIN=" (-8000)).length = 11 := lmin
  have hcases : txt = sprintf6d "Cnt=" (mainLoopBody B s inp).1.cnt0 ∨
      txt = sprintf6d "MAX=" 15000 ∨ txt = sprintf6d "MIN=" (-8000) ∨
      txt = "MAX" ∨ txt = "MIN" ∨ txt = "   " := by
    split_ifs at htxt <;> simp at htxt <;> tauto
  rcases hcases with h1 | h1 | h1 | h1 | h1 | h1 <;> subst h1 <;> omega

theorem C15_texts_fit_witness :
    (sprintf6d "Cnt=" (mainLoopBody sampleBoard (State.mk 0 (-7990) (-7990) 0)
        (Input.mk (low sampleBoard.JOYSTICK_LEFT_bm) allHigh)).1.cnt0).length = 11 :=
  (C15_texts_fit sampleBoard (State.mk 0 (-7990) (-7990) 0)
    (Input.mk (low sampleBoard.JOYSTICK_LEFT_bm) allHigh) (by decide)).2.1.1

/-! ## C18: no edge, no change -/

/-- C18: for every state and every pass in which none of the four direction bits has a
rising edge and the two buttons are not both pressed, the counter after the pass equals
the counter before it. -/
theorem C18_no_edge_no_change (B : Board) (s : State) (inp : Input)
    (hno : ∀ d, ¬ edge B s inp d) (hnb : ¬ (sw1 B inp ∧ sw2 B inp)) :
    (mainLoopBody B s inp).1.cnt0 = s.cnt0 := by
  have hf : firstEdge B s inp = none := by
    unfold firstEdge
    simp [hno]
  have hm : modifierState B inp ≠ ModifierState.Both := by
    unfold modifierState
    intro hb
    split_ifs at hb with h1 h2
    exact hnb ⟨h1, h2⟩
  exact mainLoopBody_cnt0_of_no_edge B s inp hm hf

theorem C18_no_edge_no_change_witness :
    (mainLoopBody sampleBoard (State.mk (2 ^ 9) 42 42 0)
        (Input.mk (low sampleBoard.JOYSTICK_UP_bm) (low sampleBoard.BUTTON_SW2_bm))).1.cnt0 =
      42 :=
  C18_no_edge_no_change sampleBoard (State.mk (2 ^ 9) 42 42 0)
    (Input.mk (low sampleBoard.JOYSTICK_UP_bm) (low sampleBoard.BUTTON_SW2_bm))
    (by intro d; cases d <;> decide) (by decide)

/-! ## C19: bound of the hold timer -/

/-- A pass keeps the hold timer between 0 and 9. -/
theorem delay_count_bound_mainLoopBody (B : Board) (s : State) (inp : Input)
    (h0 : 0 ≤ s.delay_count) (h9 : s.delay_count ≤ 9) :
    0 ≤ (mainLoopBody B s inp).1.delay_count ∧ (mainLoopBody B s inp).1.delay_count ≤ 9 := by
  have hw : int32 (s.delay_count + 1) = s.delay_count + 1 :=
    int32_eq_self (by omega) (by omega)
  rw [mainLoopBody_delay_count, hw]
  split_ifs <;> omega

theorem delay_count_bound_mainLoop (B : Board) (inputs : List Input) (s : State)
    (h0 : 0 ≤ s.delay_count) (h9 : s.delay_count ≤ 9) :
    0 ≤ (mainLoop B s inputs).delay_count ∧ (mainLoop B s inputs).delay_count ≤ 9 := by
  induction inputs generalizing s with
  | nil => exact ⟨h0, h9⟩
  | cons inp rest ih =>
    obtain ⟨h1, h2⟩ := delay_count_bound_mainLoopBody B s inp h0 h9
    exact ih _ h1 h2

/-- While both buttons stay pressed the hold timer counts modulo ten, and the counter is
kept until the timer first reaches ten and is 0 from then on. -/
theorem mainLoop_hold_mod (B : Board) (inputs : List Input) (s : State)
    (hboth : ∀ i ∈ inputs, modifierState B i = ModifierState.Both)
    (h0 : 0 ≤ s.delay_count) (h9 : s.delay_count ≤ 9) :
    (mainLoop B s inputs).delay_count = (s.delay_count + (inputs.length : Int)) % 10 ∧
      (mainLoop B s inputs).cnt0 =
        if s.delay_count + (inputs.length : Int) < 10 then s.cnt0 else 0 := by
  induction inputs generalizing s with
  | nil =>
    simp only [mainLoop, List.length_nil, Nat.cast_zero, add_zero]
    constructor
    · omega
    · rw [if_pos (by omega)]
  | cons inp rest ih =>
    have hb : modifierState B inp = ModifierState.Both := hboth inp (List.mem_cons_self _ _)
    have hlen : ((inp :: rest).length : Int) = (rest.length : Int) + 1 := by simp
    have hw : int32 (s.delay_count + 1) = s.delay_count + 1 :=
      int32_eq_self (by omega) (by omega)
    have hd : (mainLoopBody B s inp).1.delay_count =
        if s.delay_count + 1 = 10 then 0 else s.delay_count + 1 := by
      rw [mainLoopBody_delay_count, if_pos hb, hw]
    have hc : (mainLoopBody B s inp).1.cnt0 =
        if s.delay_count + 1 = 10 then 0 else s.cnt0 := by
      rw [mainLoopBody_cnt0, hb]
      simp only [hw]
    obtain ⟨b0, b9⟩ := delay_count_bound_mainLoopBody B s inp h0 h9
    have hrest := ih (mainLoopBody B s inp).1
      (fun i hi => hboth i (List.mem_cons_of_mem _ hi)) b0 b9
    have hn : (0 : Int) ≤ (rest.length : Int) := Int.natCast_nonneg _
    show (mainLoop B (mainLoopBody B s inp).1 rest).delay_count =
        (s.delay_count + ((inp :: rest).length : Int)) % 10 ∧
      (mainLoop B (mainLoopBody B s inp).1 rest).cnt0 =
        if s.delay_count + ((inp :: rest).length : Int) < 10 then s.cnt0 else 0
    rw [hlen]
    by_cases h10 : s.delay_count + 1 = 10
    · rw [if_pos h10] at hd hc
      rw [hd, hc] at hrest
      obtain ⟨r1, r2⟩ := hrest
      refine ⟨?_, ?_⟩
      · rw [r1]
        omega
      · have hge : ¬ (s.delay_count + ((rest.length : Int) + 1) < 10) := by omega
        rw [r2, if_neg hge]
        split_ifs <;> rfl
    · rw [if_neg h10] at hd hc
      rw [hd, hc] at hrest
      obtain ⟨r1, r2⟩ := hrest
      refine ⟨?_, ?_⟩
      · rw [r1]
        omega
      · rw [r2]
        by_cases hlt : s.delay_count + 1 + (rest.length : Int) < 10
        · have hlt' : s.delay_count + ((rest.length : Int) + 1) < 10 := by omega
          rw [if_pos hlt, if_pos hlt']
        · have hge : ¬ (s.delay_count + ((rest.length : Int) + 1) < 10) := by omega
          rw [if_neg hlt, if_neg hge]

/-- The test `delay_count == 10` after the increment, for a timer that holds `k mod 10`. -/
theorem int32_succ_mod_ten (k : Nat) :
    int32 ((k : Int) % 10 + 1) = 10 ↔ (k + 1) % 10 = 0 := by
  have h1 : (0 : Int) ≤ (k : Int) % 10 := by omega
  have h2 : (k : Int) % 10 < 10 := by omega
  rw [int32_eq_self (by omega) (by omega)]
  omega

/-- C19: starting from hold timer 0, for every input sequence the hold timer satisfies
0 ≤ delay_count ≤ 9 at the end of the run (so at the end of every pass), hence the test
against 10 is never stepped over; and during a continuous hold of both buttons the
timer after k passes is k mod 10, the test `delay_count == 10` succeeds in pass k+1
exactly when k+1 is a multiple of ten, and the counter is kept before the tenth pass and
is 0 from the tenth pass on. -/
theorem C19_hold_timer_bound (B : Board) (s : State) (inputs : List Input)
    (h0 : s.delay_count = 0) :
    (0 ≤ (mainLoop B s inputs).delay_count ∧ (mainLoop B s inputs).delay_count ≤ 9) ∧
    ((∀ i ∈ inputs, modifierState B i = ModifierState.Both) →
      (mainLoop B s inputs).delay_count = (inputs.length : Int) % 10 ∧
      (mainLoop B s inputs).cnt0 = (if inputs.length < 10 then s.cnt0 else 0) ∧
      ∀ k, k < inputs.length →
        (int32 ((mainLoop B s (inputs.take k)).delay_count + 1) = 10 ↔ (k + 1) % 10 = 0)) := by
  refine ⟨delay_count_bound_mainLoop B inputs s (by omega) (by omega), fun hboth => ?_⟩
  have hall := mainLoop_hold_mod B inputs s hboth (by omega) (by omega)
  rw [h0] at hall
  simp only [zero_add] at hall
  refine ⟨hall.1, ?_, ?_⟩
  · rw [hall.2]
    by_cases hlt : inputs.length < 10
    · have hlt' : (inputs.length : Int) < 10 := by omega
      rw [if_pos hlt, if_pos hlt']
    · have hge : ¬ ((inputs.length : Int) < 10) := by omega
      rw [if_neg hlt, if_neg hge]
  · intro k hk
    have hl : (inputs.take k).length = k := by
      rw [List.length_take]; omega
    have hk' := (mainLoop_hold_mod B (inputs.take k) s
      (fun i hi => hboth i (List.mem_of_mem_take hi)) (by omega) (by omega)).1
    rw [h0, hl] at hk'
    simp only [zero_add] at hk'
    rw [hk']
    exact int32_succ_mod_ten k

theorem C19_hold_timer_bound_witness :
    (0 ≤ (mainLoop sampleBoard (State.mk 0 321 321 0)
        (List.replicate 23 (Input.mk allHigh
          (low (sampleBoard.BUTTON_SW1_bm + sampleBoard.BUTTON_SW2_bm))))).delay_count ∧
      (mainLoop sampleBoard (State.mk 0 321 321 0)
        (List.replicate 23 (Input.mk allHigh
          (low (sampleBoard.BUTTON_SW1_bm + sampleBoard.BUTTON_SW2_bm))))).delay_count ≤ 9) ∧
    (mainLoop sampleBoard (State.mk 0 321 321 0)
        (List.replicate 23 (Input.mk allHigh
          (low (sampleBoard.BUTTON_SW1_bm + sampleBoard.BUTTON_SW2_bm))))).delay_count = 3 ∧
    (mainLoop sampleBoard (State.mk 0 321 321 0)
        (List.replicate 23 (Input.mk allHigh
          (low (sampleBoard.BUTTON_SW1_bm + sampleBoard.BUTTON_SW2_bm))))).cnt0 = 0 :=
  have h := C19_hold_timer_bound sampleBoard (State.mk 0 321 321 0)
    (List.replicate 23 (Input.mk allHigh
      (low (sampleBoard.BUTTON_SW1_bm + sampleBoard.BUTTON_SW2_bm)))) rfl
  ⟨h.1, (h.2 (by decide)).1, (h.2 (by decide)).2.1⟩

/-! ## C16: the first pass -/

/-- C16 fails on the code: with the joystick released at initialisation and Up pressed with
no button in the first pass, the counter becomes 1, which equals the initial render cache
`cnt0 + 1`, and the first pass makes no LCD call. -/
theorem C16_first_pass_not_drawn :
    (mainInit allHigh).cnt0 = 0 ∧ (mainInit allHigh).cnt1 = 1 ∧
    (mainLoopBody sampleBoard (mainInit allHigh)
      (Input.mk (low sampleBoard.JOYSTICK_UP_bm) allHigh)).1.cnt0 = 1 ∧
    (mainLoopBody sampleBoard (mainInit allHigh)
      (Input.mk (low sampleBoard.JOYSTICK_UP_bm) allHigh)).2 = [] := by
  decide

/-! ## C14, C17: render cache and display -/

theorem render_eq_nil {c c1 : Int} (h : render c c1 = []) (hin : inRange c) : c = c1 := by
  by_contra hne
  rw [render_of_gate hne hin] at h
  simp at h

/-- A pass that renders leaves the text of its counter at (5,50). -/
theorem Screen.run_render (sc : Screen) {c c1 : Int} (h : render c c1 ≠ []) :
    (Screen.run sc (render c c1)).cntText = some (sprintf6d "Cnt=" c) := by
  obtain ⟨hne, hin⟩ := render_ne_nil h
  rw [render_of_gate hne hin]
  by_cases h1 : c = 15000
  · simp [h1, Screen.run, Screen.exec]
  · by_cases h2 : c = -8000
    · simp [h2, Screen.run, Screen.exec]
    · simp [h1, h2, Screen.run, Screen.exec]

theorem Screen.exec_cntText_ne_none (sc : Screen) (cmd : Cmd) (h : sc.cntText ≠ none) :
    (Screen.exec sc cmd).cntText ≠ none := by
  cases cmd with
  | LCDGotoXY x y => exact h
  | LCDCharColor fg bg => exact h
  | LCDPutStr txt =>
    unfold Screen.exec
    split_ifs
    · simp
    · exact h

theorem Screen.run_cntText_ne_none (cmds : List Cmd) (sc : Screen) (h : sc.cntText ≠ none) :
    (Screen.run sc cmds).cntText ≠ none := by
  induction cmds generalizing sc with
  | nil => exact h
  | cons cmd rest ih => exact ih _ (Screen.exec_cntText_ne_none sc cmd h)

/-- Once a pass has rendered, the display holds a counter text for the rest of the run. -/
theorem mainLoopScreen_cntText_ne_none (B : Board) (inputs : List Input) (s : State)
    (sc : Screen)
    (h : sc.cntText ≠ none ∨ ∃ d ∈ mainLoopDraws B s inputs, d ≠ []) :
    (mainLoopScreen B s sc inputs).cntText ≠ none := by
  induction inputs generalizing s sc with
  | nil =>
    rcases h with h | ⟨d, hd, _⟩
    · exact h
    · simp [mainLoopDraws] at hd
  | cons inp rest ih =>
    show (mainLoopScreen B (mainLoopBody B s inp).1
      (Screen.run sc (mainLoopBody B s inp).2) rest).cntText ≠ none
    apply ih
    by_cases hr : (mainLoopBody B s inp).2 = []
    · rcases h with h | ⟨d, hd, hne⟩
      · exact Or.inl (Screen.run_cntText_ne_none _ sc h)
      · right
        simp only [mainLoopDraws, List.mem_cons] at hd
        rcases hd with hd | hd
        · exact absurd (hd ▸ hr) hne
        · exact ⟨d, hd, hne⟩
    · left
      rw [mainLoopBody_draws] at hr ⊢
      rw [Screen.run_render sc hr]
      simp

/-- The relation between state and display kept by every pass: either nothing has been
drawn yet, or the render cache holds the counter and, when the counter is in the range,
the display shows its text. -/
theorem mainLoopScreen_consistent (B : Board) (inputs : List Input) (s : State) (sc : Screen)
    (h : sc.cntText = none ∨
      (s.cnt1 = s.cnt0 ∧ (inRange s.cnt0 → sc.cntText = some (sprintf6d "Cnt=" s.cnt0)))) :
    (mainLoopScreen B s sc inputs).cntText = none ∨
      ((mainLoop B s inputs).cnt1 = (mainLoop B s inputs).cnt0 ∧
        (inRange (mainLoop B s inputs).cnt0 →
          (mainLoopScreen B s sc inputs).cntText =
            some (sprintf6d "Cnt=" (mainLoop B s inputs).cnt0))) := by
  induction inputs generalizing s sc with
  | nil => exact h
  | cons inp rest ih =>
    show (mainLoopScreen B (mainLoopBody B s inp).1
        (Screen.run sc (mainLoopBody B s inp).2) rest).cntText = none ∨
      ((mainLoop B (mainLoopBody B s inp).1 rest).cnt1 =
          (mainLoop B (mainLoopBody B s inp).1 rest).cnt0 ∧
        (inRange (mainLoop B (mainLoopBody B s inp).1 rest).cnt0 →
          (mainLoopScreen B (mainLoopBody B s inp).1
            (Screen.run sc (mainLoopBody B s inp).2) rest).cntText =
            some (sprintf6d "Cnt=" (mainLoop B (mainLoopBody B s inp).1 rest).cnt0)))
    apply ih
    by_cases hr : (mainLoopBody B s inp).2 = []
    · rw [hr]
      rcases h with h | ⟨h1, h2⟩
      · exact Or.inl h
      · right
        refine ⟨rfl, fun hin => ?_⟩
        rw [mainLoopBody_draws] at hr
        have heq := render_eq_nil hr hin
        rw [heq, h1] at hin ⊢
        exact h2 hin
    · right
      refine ⟨rfl, fun _ => ?_⟩
      rw [mainLoopBody_draws] at hr ⊢
      exact Screen.run_render sc hr

/-- C17: for every input sequence from the initial state, at the end of every run in which
some pass has rendered, if the counter lies within `CNT_MIN .. CNT_MAX` then the counter
text most recently drawn at (5,50) is the text of the current counter. -/
theorem C17_display_consistency (B : Board) (joystick : Nat) (inputs : List Input)
    (hdrawn : ∃ d ∈ mainLoopDraws B (mainInit joystick) inputs, d ≠ [])
    (hin : inRange (mainLoop B (mainInit joystick) inputs).cnt0) :
    (mainLoopScreen B (mainInit joystick) Screen.blank inputs).cntText =
      some (sprintf6d "Cnt=" (mainLoop B (mainInit joystick) inputs).cnt0) := by
  have hsome := mainLoopScreen_cntText_ne_none B inputs (mainInit joystick) Screen.blank
    (Or.inr hdrawn)
  rcases mainLoopScreen_consistent B inputs (mainInit joystick) Screen.blank (Or.inl rfl)
    with h | ⟨_, h⟩
  · exact absurd h hsome
  · exact h hin

theorem C17_display_consistency_witness :
    (mainLoopScreen sampleBoard (mainInit allHigh) Screen.blank
        [Input.mk (low sampleBoard.JOYSTICK_UP_bm) (low sampleBoard.BUTTON_SW2_bm),
         Input.mk allHigh allHigh,
         Input.mk (low sampleBoard.JOYSTICK_UP_bm) allHigh,
         Input.mk allHigh allHigh,
         Input.mk (low sampleBoard.JOYSTICK_LEFT_bm) allHigh]).cntText =
      some (sprintf6d "Cnt=" (mainLoop sampleBoard (mainInit allHigh)
        [Input.mk (low sampleBoard.JOYSTICK_UP_bm) (low sampleBoard.BUTTON_SW2_bm),
         Input.mk allHigh allHigh,
         Input.mk (low sampleBoard.JOYSTICK_UP_bm) allHigh,
         Input.mk allHigh allHigh,
         Input.mk (low sampleBoard.JOYSTICK_LEFT_bm) allHigh]).cnt0) :=
  C17_display_consistency sampleBoard allHigh
    [Input.mk (low sampleBoard.JOYSTICK_UP_bm) (low sampleBoard.BUTTON_SW2_bm),
     Input.mk allHigh allHigh,
     Input.mk (low sampleBoard.JOYSTICK_UP_bm) allHigh,
     Input.mk allHigh allHigh,
     Input.mk (low sampleBoard.JOYSTICK_LEFT_bm) allHigh]
    ⟨render 15000 1, by decide, by decide⟩ (by decide)

/-! ## C13: sequences of Up and Down pulses -/

theorem int32_int32_add (x k : Int) : int32 (int32 x + k) = int32 (x + k) := by
  unfold int32
  omega

theorem int32_idem (x : Int) : int32 (int32 x) = int32 x := by
  unfold int32
  omega

/-- A pass keeps the counter a 32-bit value. -/
theorem int32_mainLoopBody_cnt0 (B : Board) (s : State) (inp : Input)
    (h : int32 s.cnt0 = s.cnt0) :
    int32 (mainLoopBody B s inp).1.cnt0 = (mainLoopBody B s inp).1.cnt0 := by
  rw [mainLoopBody_cnt0]
  cases hm : modifierState B inp <;> cases hf : firstEdge B s inp <;> simp only []
  all_goals first
    | exact h
    | exact int32_idem _
    | exact int32_of_inRange (setValue_inRange _)
    | (split_ifs
       · decide
       · exact h)

theorem int32_mainLoop_cnt0 (B : Board) (inputs : List Input) (s : State)
    (h : int32 s.cnt0 = s.cnt0) :
    int32 (mainLoop B s inputs).cnt0 = (mainLoop B s inputs).cnt0 := by
  induction inputs generalizing s with
  | nil => exact h
  | cons inp rest ih => exact ih _ (int32_mainLoopBody_cnt0 B s inp h)

/-- With no button pressed and only Up and Down acting, the counter moves by the number of
Up passes minus the number of Down passes, as a 32-bit value. -/
theorem mainLoop_pulses (B : Board) (inputs : List Input) (s : State)
    (hnone : ∀ i ∈ inputs, modifierState B i = ModifierState.None)
    (hud : ∀ o ∈ edgeTrace B s inputs, o = none ∨ o = some Dir.Up ∨ o = some Dir.Down) :
    int32 (mainLoop B s inputs).cnt0 =
      int32 (s.cnt0 + ((edgeTrace B s inputs).count (some Dir.Up) : Int)
        - ((edgeTrace B s inputs).count (some Dir.Down) : Int)) := by
  induction inputs generalizing s with
  | nil => simp [mainLoop, edgeTrace]
  | cons inp rest ih =>
    have hm : modifierState B inp = ModifierState.None := hnone inp (List.mem_cons_self _ _)
    have ho := hud (firstEdge B s inp) (by simp [edgeTrace])
    have hrest := ih (mainLoopBody B s inp).1
      (fun i hi => hnone i (List.mem_cons_of_mem _ hi))
      (fun o ho => hud o (by simp [edgeTrace, ho]))
    have hc := mainLoopBody_cnt0 B s inp
    rw [hm] at hc
    show int32 (mainLoop B (mainLoopBody B s inp).1 rest).cnt0 =
      int32 (s.cnt0 +
        ((firstEdge B s inp :: edgeTrace B (mainLoopBody B s inp).1 rest).count
          (some Dir.Up) : Int)
        - ((firstEdge B s inp :: edgeTrace B (mainLoopBody B s inp).1 rest).count
          (some Dir.Down) : Int))
    rw [hrest]
    rcases ho with h | h | h
    · simp only [h] at hc
      rw [hc, h]
      simp [List.count_cons]
    · simp only [h] at hc
      rw [hc, h]
      simp only [relStep, List.count_cons, beq_self_eq_true, if_true, Nat.cast_add,
        Nat.cast_one]
      have hne : (some Dir.Up == some Dir.Down) = false := by decide
      simp only [hne, Bool.false_eq_true, if_false, add_zero]
      rw [add_sub_assoc, int32_int32_add]
      congr 1
      ring
    · simp only [h] at hc
      rw [hc, h]
      simp only [relStep, List.count_cons, beq_self_eq_true, if_true, Nat.cast_add,
        Nat.cast_one]
      have hne : (some Dir.Down == some Dir.Up) = false := by decide
      simp only [hne, Bool.false_eq_true, if_false, add_zero]
      rw [add_sub_assoc, int32_int32_add]
      congr 1
      ring

/-- The acting edge of a pass depends on the state only through the previous joystick
sample. -/
theorem firstEdge_congr (B : Board) (s t : State) (inp : Input) (h : s.joyst1 = t.joyst1) :
    firstEdge B s inp = firstEdge B t inp := by
  unfold firstEdge edge joystREdge
  simp only [h]

/-- One Up pulse on `sampleBoard` from a state whose previous joystick sample is released:
the press pass acts as Up, the release pass has no edge, and the counter is incremented. -/
theorem upPulse_two_passes (t : State) (ht : t.joyst1 = 0) :
    firstEdge sampleBoard t (Input.mk (low sampleBoard.JOYSTICK_UP_bm) allHigh) =
        some Dir.Up ∧
      firstEdge sampleBoard
        (mainLoopBody sampleBoard t (Input.mk (low sampleBoard.JOYSTICK_UP_bm) allHigh)).1
        (Input.mk allHigh allHigh) = none ∧
      (mainLoopBody sampleBoard
        (mainLoopBody sampleBoard t (Input.mk (low sampleBoard.JOYSTICK_UP_bm) allHigh)).1
        (Input.mk allHigh allHigh)).1.joyst1 = 0 := by
  refine ⟨?_, ?_, ?_⟩
  · rw [firstEdge_congr sampleBoard t (State.mk 0 0 0 0) _ ht]
    decide
  · rw [firstEdge_congr sampleBoard _
      (State.mk (joyst0 (Input.mk (low sampleBoard.JOYSTICK_UP_bm) allHigh)) 0 0 0) _
      (mainLoopBody_joyst1 _ _ _)]
    decide
  · rw [mainLoopBody_joyst1]
    decide

theorem upPulses_modifierState (n : Nat) :
    ∀ i ∈ upPulses n, modifierState sampleBoard i = ModifierState.None := by
  induction n with
  | zero => simp [upPulses]
  | succ n ih =>
    intro i hi
    simp only [upPulses, List.mem_cons] at hi
    rcases hi with hi | hi | hi
    · subst hi; decide
    · subst hi; decide
    · exact ih i hi

/-- The trace of `n` Up pulses: only Up acts, `n` times, and the specification would stop
counting at `CNT_MAX`. -/
theorem upPulses_trace (n : Nat) (t : State) (ht : t.joyst1 = 0) :
    (∀ o ∈ edgeTrace sampleBoard t (upPulses n), o = none ∨ o = some Dir.Up) ∧
      (edgeTrace sampleBoard t (upPulses n)).count (some Dir.Up) = n ∧
      (edgeTrace sampleBoard t (upPulses n)).count (some Dir.Down) = 0 ∧
      ∀ c, inRange c →
        specPulses c (edgeTrace sampleBoard t (upPulses n)) = min (c + (n : Int)) 15000 := by
  induction n generalizing t with
  | zero =>
    refine ⟨by simp [upPulses, edgeTrace], rfl, rfl, fun c hc => ?_⟩
    unfold inRange CNT_MIN CNT_MAX at hc
    simp only [upPulses, edgeTrace, specPulses, Nat.cast_zero, add_zero]
    omega
  | succ n ih =>
    obtain ⟨h1, h2, h3⟩ := upPulse_two_passes t ht
    obtain ⟨i1, i2, i3, i4⟩ := ih _ h3
    have htrace : edgeTrace sampleBoard t (upPulses (n + 1)) =
        some Dir.Up :: none :: edgeTrace sampleBoard
          (mainLoopBody sampleBoard
            (mainLoopBody sampleBoard t
              (Input.mk (low sampleBoard.JOYSTICK_UP_bm) allHigh)).1
            (Input.mk allHigh allHigh)).1 (upPulses n) := by
      simp only [upPulses, edgeTrace, h1, h2]
    rw [htrace]
    refine ⟨?_, ?_, ?_, fun c hc => ?_⟩
    · intro o ho
      simp only [List.mem_cons] at ho
      rcases ho with ho | ho | ho
      · exact Or.inr ho
      · exact Or.inl ho
      · exact i1 o ho
    · have hne : (some Dir.Up : Option Dir) ≠ none := by decide
      rw [List.count_cons_self, List.count_cons_of_ne hne, i2]
    · have hne1 : (some Dir.Down : Option Dir) ≠ some Dir.Up := by decide
      have hne2 : (some Dir.Down : Option Dir) ≠ none := by decide
      rw [List.count_cons_of_ne hne1, List.count_cons_of_ne hne2, i3]
    · simp only [specPulses, clamp_or_discard]
      unfold inRange CNT_MIN CNT_MAX at hc
      by_cases hstep : inRange (c + 1)
      · rw [if_pos hstep, i4 _ hstep]
        push_cast
        omega
      · rw [if_neg hstep, i4 c (by unfold inRange CNT_MIN CNT_MAX; exact hc)]
        unfold inRange CNT_MIN CNT_MAX at hstep
        push_cast
        omega

/-- C13, violated by the code: from the initial state, 15001 Up pulses with no button
pressed (only Up ever acts) leave the counter at 15001, while processing the same edges
as +1 steps under `clamp_or_discard`, which skips the step that would leave
`CNT_MIN .. CNT_MAX`, gives 15000. -/
theorem C13_pulses_not_discarded :
    (upPulses 15001).all (fun i => decide (modifierState sampleBoard i = ModifierState.None))
      = true ∧
    (edgeTrace sampleBoard (mainInit allHigh) (upPulses 15001)).all
      (fun o => decide (o = none ∨ o = some Dir.Up)) = true ∧
    (mainLoop sampleBoard (mainInit allHigh) (upPulses 15001)).cnt0 = 15001 ∧
    specPulses (mainInit allHigh).cnt0
      (edgeTrace sampleBoard (mainInit allHigh) (upPulses 15001)) = 15000 := by
  have h0 : (mainInit allHigh).joyst1 = 0 := by decide
  obtain ⟨t1, t2, t3, t4⟩ := upPulses_trace 15001 (mainInit allHigh) h0
  refine ⟨?_, ?_, ?_, ?_⟩
  · rw [List.all_eq_true]
    intro i hi
    exact decide_eq_true (upPulses_modifierState 15001 i hi)
  · rw [List.all_eq_true]
    intro o ho
    exact decide_eq_true (t1 o ho)
  · have hsum := mainLoop_pulses sampleBoard (upPulses 15001) (mainInit allHigh)
      (upPulses_modifierState 15001)
      (fun o ho => (t1 o ho).elim Or.inl (fun h => Or.inr (Or.inl h)))
    rw [t2, t3, int32_mainLoop_cnt0 sampleBoard (upPulses 15001) (mainInit allHigh) rfl]
      at hsum
    rw [hsum]
    decide
  · have h := t4 0 (show inRange (0 : Int) by decide)
    have hmin : min ((0 : Int) + ((15001 : Nat) : Int)) 15000 = 15000 := by decide
    exact h.trans hmin

end PioLcd
